import Mathlib

/-!
The eduP2P control session and session manager: a shallow embedding of

* `types/control/server_session.go`: `PeerDelta.Merge`, the authenticate
  loop `ServerSession.doAuthenticate`, and the visibility callback and
  Established read loop of `ServerSession.Run`;
* `toversok/actors/a_sman.go`: `SessionManager.Pack`, `Unpack`, `Handle`
  and `Run`.

Definitions come first, theorems follow.
-/

namespace EduP2P

/-! ## PeerDelta (server_session.go, lines 441-464) -/

/-- The Go struct `PeerDelta`: five boolean flags. -/
structure PeerDelta where
  add : Bool
  remove : Bool
  endpoints : Bool
  session : Bool
  relay : Bool
  deriving DecidableEq, Repr

namespace PeerDelta

/-- The zero value of the Go struct: every flag false. -/
def zero : PeerDelta :=
  { add := false, remove := false, endpoints := false, session := false, relay := false }

/-- Go `func (p PeerDelta) Merge(o PeerDelta) PeerDelta`: `p` is the older delta,
`o` the newer one. The composite literal of the last branch leaves `add` and
`remove` at their zero value. -/
def Merge (p o : PeerDelta) : PeerDelta :=
  if o.add || o.remove then
    o
  else if p.add || p.remove then
    p
  else
    { add := false
      remove := false
      endpoints := p.endpoints || o.endpoints
      session := p.session || o.session
      relay := p.relay || o.relay }

/-- Whether a delta carries `add` or `remove`. -/
def carrier (d : PeerDelta) : Bool := d.add || d.remove

/-- Folding the non-empty sequence `d1, rest...` with `older.Merge(newer)`,
oldest first. -/
def foldMerge (d1 : PeerDelta) (rest : List PeerDelta) : PeerDelta :=
  rest.foldl Merge d1

/-- The same sequence coalesced from the newest end:
`d1.Merge(d2.Merge(... dn))`. -/
def foldMergeRight : PeerDelta → List PeerDelta → PeerDelta
  | d1, [] => d1
  | d1, d2 :: rest => Merge d1 (foldMergeRight d2 rest)

/-- The latest delta of a sequence that carries `add` or `remove`, if any. -/
def latestCarrier (ds : List PeerDelta) : Option PeerDelta :=
  ds.reverse.find? carrier

end PeerDelta

/-! ## Keys, bytes and slices -/

/-- One byte. -/
abbrev Byte := Fin 256

/-- Modelled from the spec: the constant `key.Len` of the package `types/key`
(the spec fixes the sender public key of a frame at 32 bytes). -/
def keyLen : Nat := 32

/-- The Go type `key.SessionPublic`, an array of `key.Len` bytes. -/
structure SessionPublic where
  bytes : List Byte
  size : bytes.length = keyLen
  deriving DecidableEq

/-- The Go type `key.NodePublic`, an array of `key.Len` bytes. -/
structure NodePublic where
  bytes : List Byte
  size : bytes.length = keyLen
  deriving DecidableEq

/-- Go `control.ClientID`: the code converts with `key.NodePublic(id)` and
`ClientID(s.Peer)`, so both have the same underlying type. -/
abbrev ClientID := NodePublic

/-- Go `key.MakeSessionPublic([key.Len]byte(...))`. -/
def MakeSessionPublic (raw : List Byte) (h : raw.length = keyLen) : SessionPublic :=
  ⟨raw, h⟩

/-- Go `SessionPublic.ToByteSlice`. -/
def SessionPublic.ToByteSlice (k : SessionPublic) : List Byte := k.bytes

/-- A Go slice value as the code can observe it: `nil` (`none`) or a sequence
of elements, possibly empty. -/
abbrev Slice (α : Type) := Option (List α)

/-- Go `netip.AddrPort`, kept as its textual form. -/
abbrev AddrPort := String

/-- Go `netip.Prefix`, kept as its textual form. -/
abbrev IPRange := String

/-- A Go call that either completes with a value or panics. -/
inductive Panicking (α : Type) where
  | done (a : α)
  | panicked (v : String)
  deriving DecidableEq

/-- Replacing the byte at position `i` of a frame by `b`. -/
def alterByte (frame : List Byte) (i : Nat) (b : Byte) : List Byte :=
  frame.set i b

/-! ## Session manager (a_sman.go) -/

/-- The operations of the packages `types/key` and `types/msgsess` that the
session manager calls and that are not part of the translated sources, taken
as parameters. `Rand` is whatever randomness `Seal` draws (its nonce);
`Open` returns the clear bytes when its second result `ok` is true. -/
structure SessionDeps (Priv SharedKey Rand Msg : Type) where
  Magic : List Byte
  Public : Priv → SessionPublic
  Shared : Priv → SessionPublic → SharedKey
  Seal : SharedKey → Rand → List Byte → List Byte
  Open : SharedKey → List Byte → Option (List Byte)
  MarshalSessionMessage : Msg → List Byte
  ParseSessionMessage : List Byte → Except String Msg

/-- Go `msgsess.ClearMessage`. -/
structure ClearMessage (Msg : Type) where
  Session : SessionPublic
  Message : Msg
  deriving DecidableEq

/-- The struct `SessionManager`; `session` is the callable that yields the
current private session key. -/
structure SessionManager (Priv : Type) where
  session : Unit → Priv

/-- Modelled from the spec: `msgsess.MagicBytes`, the bytes of the constant
`msgsess.Magic` (the spec has one fixed magic constant at the head of a
frame). -/
def MagicBytes {Priv SharedKey Rand Msg : Type} (D : SessionDeps Priv SharedKey Rand Msg) :
    List Byte :=
  D.Magic

/-- The value `cipherBytes` of `Pack`: the marshalled message sealed under
the key shared with `toSession`. -/
def cipherBytes {Priv SharedKey Rand Msg : Type} (D : SessionDeps Priv SharedKey Rand Msg)
    (sm : SessionManager Priv) (rnd : Rand) (sMsg : Msg) (toSession : SessionPublic) :
    List Byte :=
  let clearBytes := D.MarshalSessionMessage sMsg
  D.Seal (D.Shared (sm.session ()) toSession) rnd clearBytes

/-- Go `func (sm *SessionManager) Pack(sMsg, toSession) []byte`. -/
def Pack {Priv SharedKey Rand Msg : Type} (D : SessionDeps Priv SharedKey Rand Msg)
    (sm : SessionManager Priv) (rnd : Rand) (sMsg : Msg) (toSession : SessionPublic) :
    List Byte :=
  MagicBytes D ++ (D.Public (sm.session ())).ToByteSlice ++
    cipherBytes D sm rnd sMsg toSession

/-- Go `func (sm *SessionManager) Unpack(frameWithMagic) (*ClearMessage, error)`.
A slice expression beyond the length of the frame is a run-time panic (the
capacity of a frame is taken to be its length). -/
def Unpack {Priv SharedKey Rand Msg : Type} (D : SessionDeps Priv SharedKey Rand Msg)
    (sm : SessionManager Priv) (frameWithMagic : List Byte) :
    Panicking (Except String (ClearMessage Msg)) :=
  if frameWithMagic.length < D.Magic.length then
    .panicked "slice bounds out of range"
  else if frameWithMagic.take D.Magic.length ≠ D.Magic then
    .panicked "Somehow received non-session message in unpack"
  else
    let b := frameWithMagic.drop D.Magic.length
    if h : keyLen ≤ b.length then
      let sessionKey := MakeSessionPublic (b.take keyLen) (by simp [h])
      let b := b.drop keyLen
      match D.Open (D.Shared (sm.session ()) sessionKey) b with
      | none => .done (.error "could not decrypt session message")
      | some clearBytes =>
        match D.ParseSessionMessage clearBytes with
        | .error err => .done (.error ("could not parse session message: " ++ err))
        | .ok sMsg => .done (.ok { Session := sessionKey, Message := sMsg })
    else
      .panicked "slice bounds out of range"

/-- The messages of `msgactor` that `Handle` switches on; every other
message type is `other`. -/
inductive ActorMessage (Msg : Type) where
  | SManSessionFrameFromRelay (Relay : Int) (Peer : NodePublic) (FrameWithMagic : List Byte)
  | SManSessionFrameFromAddrPort (addrPort : AddrPort) (FrameWithMagic : List Byte)
  | SManSendSessionMessageToRelay (Relay : Int) (Peer : NodePublic)
      (ToSession : SessionPublic) (sMsg : Msg)
  | SManSendSessionMessageToDirect (addrPort : AddrPort) (ToSession : SessionPublic)
      (sMsg : Msg)
  | other (name : String)

/-- What `Handle` does to the other actors and to the log. -/
inductive Effect (Msg : Type) where
  /-- Go `sm.s.TMan.Inbox() <- &msgactor.TManSessionMessageFromRelay{...}` -/
  | TManSessionMessageFromRelay (Relay : Int) (Peer : NodePublic) (cm : ClearMessage Msg)
  /-- Go `sm.s.TMan.Inbox() <- &msgactor.TManSessionMessageFromDirect{...}` -/
  | TManSessionMessageFromDirect (addrPort : AddrPort) (cm : ClearMessage Msg)
  /-- Go `sm.s.RMan.WriteTo(frame, m.Relay, m.Peer)` -/
  | RManWriteTo (frame : List Byte) (Relay : Int) (Peer : NodePublic)
  /-- Go `sm.s.DMan.WriteTo(frame, m.AddrPort)` -/
  | DManWriteTo (frame : List Byte) (addrPort : AddrPort)
  /-- Go `L(sm).Error(...)` -/
  | logError (text : String) (err : String)
  /-- Go `sm.logUnknownMessage(m)` -/
  | logUnknownMessage (name : String)
  /-- Go `sm.Cancel()` -/
  | Cancel
  /-- Go `sm.Close()` -/
  | Close
  deriving DecidableEq

/-- Go `func (sm *SessionManager) Handle(msg msgactor.ActorMessage)`; `rnd` is
the randomness a `Pack` in this call draws. -/
def Handle {Priv SharedKey Rand Msg : Type} (D : SessionDeps Priv SharedKey Rand Msg)
    (sm : SessionManager Priv) (rnd : Rand) (msg : ActorMessage Msg) :
    Panicking (List (Effect Msg)) :=
  match msg with
  | .SManSessionFrameFromRelay relay peer frameWithMagic =>
    match Unpack D sm frameWithMagic with
    | .panicked v => .panicked v
    | .done (.error err) =>
      .done [.logError "error when unpacking session frame from relay" err]
    | .done (.ok cm) => .done [.TManSessionMessageFromRelay relay peer cm]
  | .SManSessionFrameFromAddrPort addrPort frameWithMagic =>
    match Unpack D sm frameWithMagic with
    | .panicked v => .panicked v
    | .done (.error err) =>
      .done [.logError "error when unpacking session frame from direct" err]
    | .done (.ok cm) => .done [.TManSessionMessageFromDirect addrPort cm]
  | .SManSendSessionMessageToRelay relay peer toSession sMsg =>
    .done [.RManWriteTo (Pack D sm rnd sMsg toSession) relay peer]
  | .SManSendSessionMessageToDirect addrPort toSession sMsg =>
    .done [.DManWriteTo (Pack D sm rnd sMsg toSession) addrPort]
  | .other name => .done [.logUnknownMessage name]

/-- Go `func (sm *SessionManager) Run()` on a manager that was not running yet:
the messages of `inbox` arrive in turn (each with the randomness its handling
draws) and then the context is done. A panic in `Handle` is recovered by the
deferred function, which logs it and cancels the actor; the loop is left. -/
def Run {Priv SharedKey Rand Msg : Type} (D : SessionDeps Priv SharedKey Rand Msg)
    (sm : SessionManager Priv) : List (Rand × ActorMessage Msg) → List (Effect Msg)
  | [] => [.Close]
  | (rnd, inMsg) :: inbox =>
    match Handle D sm rnd inMsg with
    | .done effects => effects ++ Run D sm inbox
    | .panicked v => [.logError "panicked" v, .Cancel]

/-! ### A checksum cipher instantiating the parameters -/

/-- A 32-byte session key made of one repeated byte. -/
def demoKey (b : Byte) : SessionPublic :=
  ⟨List.replicate keyLen b, by simp⟩

/-- Sealing under the pair (own public key, peer public key): both keys,
the clear bytes, and a last byte that brings the sum of all bytes to zero. -/
def demoSeal (k : SessionPublic × SessionPublic) (_rnd : Unit) (clear : List Byte) :
    List Byte :=
  let body := k.1.bytes ++ k.2.bytes ++ clear
  body ++ [- body.sum]

/-- Opening under the pair (own public key, peer public key): the two keys
must stand at the head in the order of the sealer and the bytes must sum to
zero. -/
def demoOpen (k : SessionPublic × SessionPublic) (c : List Byte) : Option (List Byte) :=
  if 2 * keyLen + 1 ≤ c.length ∧ c.take keyLen = k.2.bytes ∧
      (c.drop keyLen).take keyLen = k.1.bytes ∧ c.sum = 0 then
    some (c.drop (2 * keyLen)).dropLast
  else
    none

/-- The parameters instantiated: a private key is identified with its public
key, the shared key is the pair of both public keys, a session message is its
own byte string. -/
def demoDeps : SessionDeps SessionPublic (SessionPublic × SessionPublic) Unit (List Byte) where
  Magic := [0x65, 0x64, 0x75, 0x32]
  Public := fun priv => priv
  Shared := fun priv pub => (priv, pub)
  Seal := demoSeal
  Open := demoOpen
  MarshalSessionMessage := fun sMsg => sMsg
  ParseSessionMessage := fun clear => .ok clear

/-- The session manager of the sending side of the examples. -/
def demoSender : SessionManager SessionPublic := ⟨fun _ => demoKey 1⟩

/-- The session manager of the receiving side of the examples. -/
def demoRecipient : SessionManager SessionPublic := ⟨fun _ => demoKey 2⟩

/-- The frame the sender packs for the recipient from the message `[7, 9]`. -/
def demoFrame : List Byte :=
  Pack demoDeps demoSender () [7, 9] (demoDeps.Public (demoRecipient.session ()))

/-! ## Control messages and connections (server_session.go) -/

/-- Go `msgcontrol.LogonReject`. -/
structure LogonReject where
  Reason : String
  RetryStrategy : Int
  deriving DecidableEq

/-- The control messages of `msgcontrol` that `server_session.go` reads or
writes, with the fields it sets; every other message type is `other`. A
field of pointer type that the code leaves unset is `none`. -/
inductive ControlMessage where
  | LogonDeviceKey (DeviceKey : String)
  | LogonAuthenticate (AuthenticateURL : String)
  | LogonReject (reject : LogonReject)
  | PeerUpdate (PubKey : NodePublic) (SessKey : Option SessionPublic)
      (Endpoints : Slice AddrPort) (HomeRelay : Option Int)
  | EndpointUpdate (Endpoints : Slice AddrPort)
  | HomeRelayUpdate (HomeRelay : Int)
  | Pong
  | other (name : String)
  deriving DecidableEq

/-- The connection `*Conn` as the session code uses it: `written` collects
the messages handed to `Write`, in order; `writeResults` lists what the
coming calls of `Write` return (`none` is a nil error, also once the list is
used up). -/
structure Conn where
  written : List ControlMessage
  writeResults : List (Option String)
  deriving DecidableEq

/-- What the next call of `Write` on the connection returns. -/
def Conn.nextResult (c : Conn) : Option String :=
  match c.writeResults with
  | [] => none
  | r :: _ => r

/-- Go `func (c *Conn) Write(msg) error`. -/
def Conn.Write (c : Conn) (msg : ControlMessage) : Conn × Option String :=
  ({ written := c.written ++ [msg], writeResults := c.writeResults.tail }, c.nextResult)

/-- Go `ServerSessionState`. -/
inductive ServerSessionState where
  | Authenticate
  | Greet
  | Established
  | Dangling
  | ReEstablishing
  | Deconstructing
  deriving DecidableEq

/-- Go `RejectAuth`, `AcceptAuth` and `AuthUrl`, the values the business logic
puts on `authChan`; the channel has element type `any`, every other value is
`other`. -/
inductive AuthMsg where
  | RejectAuth (LogonReject : LogonReject)
  | AcceptAuth
  | AuthUrl (url : String)
  | other (name : String)
  deriving DecidableEq

/-- The struct `ServerSession`, without its contexts and its connection
hand-over channel. `authChan` holds the directives still to be received,
oldest first. -/
structure ServerSession where
  ID : String
  Peer : NodePublic
  Sess : SessionPublic
  IPv4 : IPRange
  IPv6 : IPRange
  HomeRelay : Int
  CurrentEndpoints : Slice AddrPort
  conn : Conn
  queuedPeerDeltas : List (NodePublic × PeerDelta)
  authChan : List AuthMsg
  state : ServerSessionState
  deriving DecidableEq

/-! ## The authenticate phase (`doAuthenticate`, lines 69-170) -/

/-- The calls made on `s.server.callbacks`. -/
inductive CallbackCall where
  | OnSessionCreate (sess : String) (client : ClientID)
  | OnSessionResume (sess : String) (client : ClientID)
  | OnDeviceKey (sess : String) (deviceKey : String)
  deriving DecidableEq

/-- The non-nil errors `doAuthenticate` returns. -/
inductive AuthError where
  /-- The error `"error when reading device key: %w"` -/
  | readingDeviceKey (err : String)
  /-- The error `"client sent device key twice"` -/
  | deviceKeyTwice
  /-- The error `"error while writing logon reject: %w, %w"`, wrapping the write error
  and `LogonRejectedError` -/
  | writingLogonReject (err : String)
  /-- The error value `LogonRejectedError` itself -/
  | LogonRejectedError
  /-- The error `"business logic sent auth url twice"` -/
  | authUrlTwice
  /-- The error `"failed to write LogonAuthenticate with auth url: %w"` -/
  | writingAuthUrl (err : String)
  /-- The error `"unknown auth object: %v"` -/
  | unknownAuthObject (name : String)
  deriving DecidableEq

/-- Go `errors.Is(err, LogonRejectedError)`: the error is `LogonRejectedError`
or wraps it with `%w`. -/
def AuthError.isLogonRejected : AuthError → Bool
  | .LogonRejectedError => true
  | .writingLogonReject _ => true
  | _ => false

/-- What one call of `s.conn.Expect(&msg, 100ms)` for a `LogonDeviceKey`
yields. -/
inductive ExpectResult where
  /-- an error that is `os.ErrDeadlineExceeded` -/
  | deadlineExceeded
  /-- any other error -/
  | failed (err : String)
  /-- the next message of the client, a `LogonDeviceKey` -/
  | deviceKey (DeviceKey : String)
  deriving DecidableEq

/-- The case of the `select` that fires, with the value received. -/
inductive SelectCase where
  | errChan (err : String)
  | msgChan (DeviceKey : String)
  | authChan (authMsg : AuthMsg)
  deriving DecidableEq

/-- The state `doAuthenticate` works on. `reads` lists what the coming calls
of `Expect` yield (a deadline once it is used up); `msgChan` and `errChan`
are the two channels of capacity 1; `inExpect` says that the goroutine has
passed the test of its loop and is inside `Expect`; `readerDone` says that
the goroutine has returned; `returned` is `none` while the loop runs and
holds the returned error (`none` for nil) afterwards. -/
structure AuthState where
  s : ServerSession
  callbacks : List CallbackCall
  reads : List ExpectResult
  msgChan : Option String
  errChan : Option String
  inExpect : Bool
  readerDone : Bool
  deviceKeySeen : Bool
  authUrlSent : Bool
  returned : Option (Option AuthError)
  deriving DecidableEq

/-- The state after the callback at the head of `doAuthenticate`, with the
goroutine started and the two flags false. -/
def AuthState.start (s : ServerSession) (resumed : Bool) (reads : List ExpectResult) :
    AuthState where
  s := s
  callbacks :=
    if resumed then [.OnSessionResume s.ID s.Peer] else [.OnSessionCreate s.ID s.Peer]
  reads := reads
  msgChan := none
  errChan := none
  inExpect := false
  readerDone := false
  deviceKeySeen := false
  authUrlSent := false
  returned := none

/-- One step of the goroutine of lines 85-108. At the head of its loop it
leaves when the context is cancelled (which the return of `doAuthenticate`
does) and enters `Expect` otherwise. Inside `Expect` it gets the next result:
after a deadline it is back at the head of the loop, and otherwise it hands
the error or the message to its channel and returns. -/
def readerStep (st : AuthState) : AuthState :=
  if st.inExpect then
    match st.reads with
    | [] => { st with inExpect := false }
    | .deadlineExceeded :: reads => { st with reads := reads, inExpect := false }
    | .failed err :: reads =>
      { st with reads := reads, inExpect := false, errChan := some err, readerDone := true }
    | .deviceKey k :: reads =>
      { st with reads := reads, inExpect := false, msgChan := some k, readerDone := true }
  else if st.returned.isSome then
    { st with readerDone := true }
  else
    { st with inExpect := true }

/-- The body of the `select` of lines 117-160 for the case that fired. -/
def selectBody (st : AuthState) : SelectCase → AuthState
  | .errChan err => { st with returned := some (some (.readingDeviceKey err)) }
  | .msgChan deviceKey =>
    if st.deviceKeySeen then
      { st with returned := some (some .deviceKeyTwice) }
    else
      { st with
        deviceKeySeen := true
        callbacks := st.callbacks ++ [.OnDeviceKey st.s.ID deviceKey] }
  | .authChan (.RejectAuth reject) =>
    let (conn, err) := st.s.conn.Write (.LogonReject reject)
    match err with
    | some err =>
      { st with s := { st.s with conn := conn }, returned := some (some (.writingLogonReject err)) }
    | none =>
      { st with s := { st.s with conn := conn }, returned := some (some .LogonRejectedError) }
  | .authChan .AcceptAuth => { st with returned := some none }
  | .authChan (.AuthUrl url) =>
    if st.authUrlSent then
      { st with returned := some (some .authUrlTwice) }
    else
      let (conn, err) := st.s.conn.Write (.LogonAuthenticate url)
      match err with
      | some err =>
        { st with
          authUrlSent := true
          s := { st.s with conn := conn }
          returned := some (some (.writingAuthUrl err)) }
      | none => { st with authUrlSent := true, s := { st.s with conn := conn } }
  | .authChan (.other name) => { st with returned := some (some (.unknownAuthObject name)) }

/-- What the scheduler lets happen next: a step of the goroutine, or the main
loop taking one of the three cases of its `select`. -/
inductive Action where
  | reader
  | recvErr
  | recvMsg
  | recvAuth
  deriving DecidableEq

/-- One scheduled action; the `select` of the main loop may take any case
whose channel holds a value. An action that is not enabled (the goroutine
has returned, the loop has returned, the channel is empty) leaves the state
as it is. -/
def authStep (st : AuthState) : Action → AuthState
  | .reader => if st.readerDone then st else readerStep st
  | .recvErr =>
    match st.returned, st.errChan with
    | none, some err => selectBody { st with errChan := none } (.errChan err)
    | _, _ => st
  | .recvMsg =>
    match st.returned, st.msgChan with
    | none, some k => selectBody { st with msgChan := none } (.msgChan k)
    | _, _ => st
  | .recvAuth =>
    match st.returned, st.s.authChan with
    | none, authMsg :: rest =>
      selectBody { st with s := { st.s with authChan := rest } } (.authChan authMsg)
    | _, _ => st

/-- Running `doAuthenticate` under a schedule. -/
def doAuthenticate (s : ServerSession) (resumed : Bool) (reads : List ExpectResult)
    (schedule : List Action) : AuthState :=
  schedule.foldl authStep (AuthState.start s resumed reads)

/-- An invariant of the device-key goroutine and its channel: the error
"client sent device key twice" has not been returned; while the goroutine
runs, `msgChan` is empty and no device key has been seen; and a device key
waiting in `msgChan` is the first one. -/
def readerInv (st : AuthState) : Prop :=
  st.returned ≠ some (some .deviceKeyTwice) ∧
  (st.readerDone = false → st.msgChan = none ∧ st.deviceKeySeen = false) ∧
  (st.msgChan.isSome = true → st.deviceKeySeen = false)

/-- An invariant of the auth mailbox and the connection, for a run that began
with `written0` handed to the connection and `directives0` in the mailbox:
while the loop runs, either no directive was taken and nothing was written,
or exactly the first directive was taken, it was an `AuthUrl`, and its
`LogonAuthenticate` is the one message written. -/
def authInv (written0 : List ControlMessage) (directives0 : List AuthMsg)
    (st : AuthState) : Prop :=
  st.returned = none →
    (st.authUrlSent = false ∧ st.s.conn.written = written0 ∧
      st.s.authChan = directives0) ∨
    (st.authUrlSent = true ∧ ∃ (url : String) (rest : List AuthMsg),
      directives0 = .AuthUrl url :: rest ∧ st.s.authChan = rest ∧
      st.s.conn.written = written0 ++ [.LogonAuthenticate url])

/-- An invariant of the reads when the client sends two device keys in a
row: either nothing was read yet, or the goroutine has returned and the
second device key is still the next thing to read. -/
def unreadInv (k1 k2 : String) (rest : List ExpectResult) (st : AuthState) : Prop :=
  st.reads = .deviceKey k1 :: .deviceKey k2 :: rest ∨
  (st.readerDone = true ∧ st.reads = .deviceKey k2 :: rest)

/-! ## The server side of `Run` (lines 296-433) -/

/-- The address of a `ServerSession` object (`*ServerSession`). -/
abbrev Ptr := Nat

/-- Go `VisibilityPair`; the code only passes the value on. -/
abbrev VisibilityPair := Nat

/-- Go `PairOperation`. The field `VisibilityPair` (in the code the address of
the loop variable `pair`) holds the pair of the loop iteration that built the
operation. -/
structure PairOperation where
  A : String
  B : String
  AN : NodePublic
  BN : NodePublic
  VisibilityPair : VisibilityPair
  deriving DecidableEq

/-- A Go map in the order one `range` over it visits its entries: the keys
are distinct. -/
structure GoMap (K V : Type) where
  entries : List (K × V)
  nodupKeys : (entries.map Prod.fst).Nodup

/-- The part of `Server` the session code touches: the session objects by
address, the lookups of the map `sessByNode`, and the slices sent on the
channel `pendingPairs`, oldest first. -/
structure Server where
  sessions : Ptr → ServerSession
  sessByNode : NodePublic → Option Ptr
  pendingPairs : List (List PairOperation)

/-- Assigning to fields of the session object at address `p`. -/
def Server.modify (srv : Server) (p : Ptr) (f : ServerSession → ServerSession) : Server :=
  { srv with sessions := Function.update srv.sessions p (f (srv.sessions p)) }

/-- The body of the loop `for id, pair := range m` of lines 331-345, for the
session at address `s`, with `ops` the slice built so far. -/
def pairLoopBody (srv : Server) (s : Ptr) (ops : List PairOperation)
    (entry : ClientID × VisibilityPair) : List PairOperation :=
  let node : NodePublic := entry.1
  match srv.sessByNode node with
  | some sess =>
    if (srv.sessions sess).state = .Established then
      ops ++ [{ A := (srv.sessions s).ID
                B := (srv.sessions sess).ID
                AN := (srv.sessions s).Peer
                BN := (srv.sessions sess).Peer
                VisibilityPair := entry.2 }]
    else
      ops
  | none => ops

/-- The function `Run` passes to `sessLockedDoVisibilityPairs` (lines
326-350), for the session at address `s`: the resulting server and the
returned error, which is nil. -/
def visibilityCallback (srv : Server) (s : Ptr) (m : GoMap ClientID VisibilityPair) :
    Server × Option String :=
  let srv := srv.modify s fun sess => { sess with state := .Established }
  let ops := m.entries.foldl (pairLoopBody srv s) []
  ({ srv with pendingPairs := srv.pendingPairs ++ [ops] }, none)

/-- The pairs the visibility snapshot is to form, in the words of the
specification and read off the server before the callback runs: one
`PairOperation` for each entry of `m` whose node is registered to a session
that is Established, or that is the session `s` itself (which the callback
has set to Established by the time it looks), and none for the others. -/
def expectedPairs (srv : Server) (s : Ptr) (m : GoMap ClientID VisibilityPair) :
    List PairOperation :=
  m.entries.filterMap fun entry =>
    match srv.sessByNode entry.1 with
    | some sess =>
      if sess = s ∨ (srv.sessions sess).state = .Established then
        some { A := (srv.sessions s).ID
               B := (srv.sessions sess).ID
               AN := (srv.sessions s).Peer
               BN := (srv.sessions sess).Peer
               VisibilityPair := entry.2 }
      else
        none
    | none => none

/-- Go `func (s *ServerSession) UpdateEndpoints(peer, endpoints)` on the session
at address `s`; the result of the write is dropped. -/
def UpdateEndpoints (srv : Server) (s : Ptr) (peer : NodePublic)
    (endpoints : Slice AddrPort) : Server :=
  srv.modify s fun sess =>
    { sess with conn := (sess.conn.Write (.PeerUpdate peer none endpoints none)).1 }

/-- Go `func (s *ServerSession) UpdateHomeRelay(peer, homeRelay)` on the session
at address `s`; the result of the write is dropped. -/
def UpdateHomeRelay (srv : Server) (s : Ptr) (peer : NodePublic) (homeRelay : Int) :
    Server :=
  srv.modify s fun sess =>
    { sess with conn := (sess.conn.Write (.PeerUpdate peer none none (some homeRelay))).1 }

/-- The sessions one call of `Server.ForVisible` hands to its callback, in
order, taken as a parameter because the method is not part of the translated
sources: the visible sessions, each handed over once. -/
structure Visible where
  sessions : List Ptr
  nodup : sessions.Nodup

/-- Go `s.server.ForVisible(s, f)` over the traversal `visible`. -/
def ForVisible (visible : Visible) (srv : Server) (f : Server → Ptr → Server) : Server :=
  visible.sessions.foldl f srv

/-- What `s.conn.Read(0)` yields. -/
inductive ReadResult where
  | failed (err : String)
  | message (m : ControlMessage)
  deriving DecidableEq

/-- How an iteration of the read loop ends: with the next iteration, or with
the return of `Run` and the error it leaves in `err`. -/
inductive LoopStep where
  | next
  | exit (err : String)
  deriving DecidableEq

/-- One iteration of the read loop of lines 369-409 for the session at
address `s`; `visible` is what a `ForVisible` of this iteration traverses. -/
def establishedIter (visible : Visible) (srv : Server) (s : Ptr) :
    ReadResult → Server × LoopStep
  | .failed err => (srv, .exit err)
  | .message (.EndpointUpdate none) => (srv, .next)
  | .message (.EndpointUpdate (some endpoints)) =>
    let srv := srv.modify s fun sess => { sess with CurrentEndpoints := some endpoints }
    (ForVisible visible srv fun srv session =>
        UpdateEndpoints srv session (srv.sessions s).Peer (some endpoints), .next)
  | .message (.HomeRelayUpdate homeRelay) =>
    let srv := srv.modify s fun sess => { sess with HomeRelay := homeRelay }
    (ForVisible visible srv fun srv session =>
        UpdateHomeRelay srv session (srv.sessions s).Peer homeRelay, .next)
  | .message .Pong => (srv, .next)
  | .message _ => (srv, .exit "received unknown type of message")

/-- The read loop on the results `reads` of the coming calls of `Read`, each
with the traversal of its iteration: the server afterwards and the error
`Run` has returned with, `none` while the loop is still reading. -/
def establishedLoop (srv : Server) (s : Ptr) : List (ReadResult × Visible) → Server × Option String
  | [] => (srv, none)
  | (r, visible) :: reads =>
    match establishedIter visible srv s r with
    | (srv, .next) => establishedLoop srv s reads
    | (srv, .exit err) => (srv, some err)

/-! ### A two-client server for the examples -/

/-- A 32-byte node key made of one repeated byte. -/
def demoNode (b : Byte) : NodePublic :=
  ⟨List.replicate keyLen b, by simp⟩

/-- The session of client `N_A` (node key of ones) at address 0, of client
`N_B` (node key of twos) at address 1; `stA` and `stB` are their states. -/
def demoSessions (stA stB : ServerSessionState) (p : Ptr) : ServerSession where
  ID := if p = 0 then "sid_A" else "sid_B"
  Peer := if p = 0 then demoNode 1 else demoNode 2
  Sess := if p = 0 then demoKey 1 else demoKey 2
  IPv4 := "10.0.0.1/32"
  IPv6 := "fd::1/128"
  HomeRelay := 7
  CurrentEndpoints := some []
  conn := { written := [], writeResults := [] }
  queuedPeerDeltas := []
  authChan := []
  state := if p = 0 then stA else stB

/-- A server where only `N_A` is registered, in state Greet. -/
def demoServerAlone : Server where
  sessions := demoSessions .Greet .Authenticate
  sessByNode := fun node => if node = demoNode 1 then some 0 else none
  pendingPairs := []

/-- A server where `N_A` (in state Greet) and `N_B` (Established) are
registered. -/
def demoServerBoth : Server where
  sessions := demoSessions .Greet .Established
  sessByNode := fun node =>
    if node = demoNode 1 then some 0 else if node = demoNode 2 then some 1 else none
  pendingPairs := []

/-- A visibility map that lists `N_A` itself. -/
def demoMapSelf : GoMap ClientID VisibilityPair :=
  ⟨[(demoNode 1, 0)], by simp⟩

/-- A visibility map that lists `N_B`. -/
def demoMapB : GoMap ClientID VisibilityPair :=
  ⟨[(demoNode 2, 0)], by simp⟩

/-- The session `N_A` while it authenticates, with `directives` waiting in
its auth mailbox and a connection whose coming writes return `writeResults`. -/
def demoAuthSession (directives : List AuthMsg) (writeResults : List (Option String)) :
    ServerSession :=
  { demoSessions .Authenticate .Authenticate 0 with
    authChan := directives
    conn := { written := [], writeResults := writeResults } }

/-! ## Theorems -/

namespace PeerDelta

theorem Merge_assoc (a b c : PeerDelta) :
    (a.Merge b).Merge c = a.Merge (b.Merge c) := by
  rcases a with ⟨a1, a2, a3, a4, a5⟩
  rcases b with ⟨b1, b2, b3, b4, b5⟩
  rcases c with ⟨c1, c2, c3, c4, c5⟩
  cases a1 <;> cases a2 <;> cases b1 <;> cases b2 <;> cases c1 <;> cases c2 <;>
    simp [Merge, Bool.or_assoc]

theorem Merge_zero (p : PeerDelta) : p.Merge zero = p := by
  rcases p with ⟨a, r, e, s, l⟩
  cases a <;> cases r <;> simp [Merge, zero]

theorem zero_Merge (p : PeerDelta) : zero.Merge p = p := by
  rcases p with ⟨a, r, e, s, l⟩
  cases a <;> cases r <;> simp [Merge, zero]

theorem Merge_of_carrier (p o : PeerDelta) (h : o.carrier = true) : p.Merge o = o := by
  unfold carrier at h
  simp [Merge, h]

theorem Merge_of_not_carrier (p o : PeerDelta) (ho : o.carrier = false)
    (hp : p.carrier = true) : p.Merge o = p := by
  unfold carrier at ho hp
  simp [Merge, ho, hp]

theorem foldMerge_append_singleton (d1 x : PeerDelta) (init : List PeerDelta) :
    foldMerge d1 (init ++ [x]) = (foldMerge d1 init).Merge x := by
  simp [foldMerge, List.foldl_append]

theorem latestCarrier_append_singleton (ds : List PeerDelta) (x : PeerDelta) :
    latestCarrier (ds ++ [x]) = if x.carrier then some x else latestCarrier ds := by
  simp [latestCarrier, List.find?_cons]
  cases x.carrier <;> rfl

theorem carrier_of_latestCarrier (ds : List PeerDelta) (c : PeerDelta)
    (h : latestCarrier ds = some c) : c.carrier = true := by
  unfold latestCarrier at h
  exact List.find?_some h

theorem foldMerge_cons (d1 d2 : PeerDelta) (rest : List PeerDelta) :
    foldMerge d1 (d2 :: rest) = d1.Merge (foldMerge d2 rest) := by
  induction rest using List.reverseRecOn generalizing d1 d2 with
  | nil => rfl
  | append_singleton init x ih =>
    rw [← List.cons_append, foldMerge_append_singleton, foldMerge_append_singleton, ih,
      Merge_assoc]

theorem foldMerge_eq_foldMergeRight (d1 : PeerDelta) (rest : List PeerDelta) :
    foldMerge d1 rest = foldMergeRight d1 rest := by
  induction rest generalizing d1 with
  | nil => rfl
  | cons d2 rest ih => rw [foldMerge_cons, ih d2, foldMergeRight]

theorem foldMerge_split (d1 d2 : PeerDelta) (older newer : List PeerDelta) :
    foldMerge d1 (older ++ d2 :: newer) = (foldMerge d1 older).Merge (foldMerge d2 newer) := by
  have h : foldMerge d1 (older ++ d2 :: newer) = foldMerge (foldMerge d1 older) (d2 :: newer) := by
    simp [foldMerge, List.foldl_append]
  rw [h, foldMerge_cons]

/-- C1: `p.Merge(o)` (p older, o newer) is `o` when `o` has add or remove
set; otherwise it is `p` when `p` has add or remove set; otherwise it is the
delta with add and remove false and endpoints, session and relay each the
boolean OR of the flags of `p` and `o`. -/
theorem Merge_rule (p o : PeerDelta) :
    ((o.add = true ∨ o.remove = true) → p.Merge o = o) ∧
    (¬(o.add = true ∨ o.remove = true) → (p.add = true ∨ p.remove = true) →
      p.Merge o = p) ∧
    (¬(o.add = true ∨ o.remove = true) → ¬(p.add = true ∨ p.remove = true) →
      p.Merge o =
        { add := false
          remove := false
          endpoints := p.endpoints || o.endpoints
          session := p.session || o.session
          relay := p.relay || o.relay }) := by
  rcases p with ⟨pa, pr, pe, ps, pl⟩
  rcases o with ⟨oa, orm, oe, os, ol⟩
  cases pa <;> cases pr <;> cases oa <;> cases orm <;> simp [Merge]

/-- Witness of C1: one pair of deltas for each of the three branches. -/
theorem Merge_rule_witness :
    (⟨false, false, true, false, false⟩ : PeerDelta).Merge ⟨false, true, false, false, true⟩
        = ⟨false, true, false, false, true⟩ ∧
    (⟨true, false, false, true, false⟩ : PeerDelta).Merge ⟨false, false, true, false, false⟩
        = ⟨true, false, false, true, false⟩ ∧
    (⟨false, false, true, false, false⟩ : PeerDelta).Merge ⟨false, false, false, false, true⟩
        = ⟨false, false, true, false, true⟩ :=
  ⟨(Merge_rule ⟨false, false, true, false, false⟩ ⟨false, true, false, false, true⟩).1
      (by decide),
    (Merge_rule ⟨true, false, false, true, false⟩ ⟨false, false, true, false, false⟩).2.1
      (by decide) (by decide),
    (Merge_rule ⟨false, false, true, false, false⟩ ⟨false, false, false, false, true⟩).2.2
      (by decide) (by decide)⟩

/-- Counterexample to C2 as stated: in the sequence (add, remove) the first
delta has add set, yet the folded result has add false. -/
theorem foldMerge_add_not_kept :
    (∃ d ∈ [(⟨true, false, false, false, false⟩ : PeerDelta),
        ⟨false, true, false, false, false⟩], d.add = true) ∧
    (foldMerge ⟨true, false, false, false, false⟩
        [⟨false, true, false, false, false⟩]).add = false := by
  decide

/-- C2, amended: when some delta of the non-empty sequence `d1, rest...`
carries add or remove, folding the sequence with `older.Merge(newer)` yields
the latest delta that carries add or remove, in every field; so the result
has add set exactly when that latest carrier has. -/
theorem foldMerge_eq_latestCarrier (d1 : PeerDelta) (rest : List PeerDelta) (c : PeerDelta)
    (h : latestCarrier (d1 :: rest) = some c) :
    foldMerge d1 rest = c ∧ ((foldMerge d1 rest).add = true ↔ c.add = true) := by
  suffices hs : foldMerge d1 rest = c by rw [hs]; exact ⟨rfl, Iff.rfl⟩
  induction rest using List.reverseRecOn generalizing c with
  | nil =>
    have hc : [d1] = [] ++ [d1] := rfl
    rw [hc, latestCarrier_append_singleton] at h
    cases hx : d1.carrier <;> simp [hx, latestCarrier] at h
    exact h
  | append_singleton init x ih =>
    rw [← List.cons_append, latestCarrier_append_singleton] at h
    rw [foldMerge_append_singleton]
    cases hx : x.carrier
    · simp [hx] at h
      rw [ih c h]
      exact Merge_of_not_carrier c x hx (carrier_of_latestCarrier _ _ h)
    · simp [hx] at h
      rw [← h]
      exact Merge_of_carrier _ x hx

/-- Witness of C2, amended: in (endpoints, add, remove+relay, session) the
latest carrier is the third delta, and the fold returns it. -/
theorem foldMerge_eq_latestCarrier_witness :
    foldMerge ⟨false, false, true, false, false⟩
        [⟨true, false, false, false, false⟩, ⟨false, true, false, false, true⟩,
          ⟨false, false, false, true, false⟩]
      = ⟨false, true, false, false, true⟩ :=
  (foldMerge_eq_latestCarrier ⟨false, false, true, false, false⟩
    [⟨true, false, false, false, false⟩, ⟨false, true, false, false, true⟩,
      ⟨false, false, false, true, false⟩] ⟨false, true, false, false, true⟩ (by decide)).1

/-- C10: `Merge` is associative and the zero `PeerDelta` is a left and a right
identity; so a sequence of queued deltas coalesces to the same delta whether
it is merged from the oldest end or from the newest end, and also when an
older and a newer part of it are coalesced apart and then merged. -/
theorem Merge_monoid :
    (∀ a b c : PeerDelta, (a.Merge b).Merge c = a.Merge (b.Merge c)) ∧
    (∀ p : PeerDelta, p.Merge zero = p) ∧
    (∀ p : PeerDelta, zero.Merge p = p) ∧
    (∀ (d1 : PeerDelta) (rest : List PeerDelta),
      foldMerge d1 rest = foldMergeRight d1 rest) ∧
    (∀ (d1 d2 : PeerDelta) (older newer : List PeerDelta),
      foldMerge d1 (older ++ d2 :: newer)
        = (foldMerge d1 older).Merge (foldMerge d2 newer)) :=
  ⟨Merge_assoc, Merge_zero, zero_Merge, foldMerge_eq_foldMergeRight, foldMerge_split⟩

end PeerDelta


/-! ### Session manager -/

theorem SessionPublic.eq_of_bytes {a b : SessionPublic} (h : a.bytes = b.bytes) : a = b := by
  cases a; cases b; simp_all

/-- What `Unpack` does with a frame that is the magic, 32 key bytes and a
ciphertext. -/
theorem Unpack_frame {Priv SharedKey Rand Msg : Type} (D : SessionDeps Priv SharedKey Rand Msg)
    (sm : SessionManager Priv) (k : SessionPublic) (c : List Byte) :
    Unpack D sm (D.Magic ++ k.bytes ++ c) =
      match D.Open (D.Shared (sm.session ()) k) c with
      | none => .done (.error "could not decrypt session message")
      | some clearBytes =>
        match D.ParseSessionMessage clearBytes with
        | .error err => .done (.error ("could not parse session message: " ++ err))
        | .ok sMsg => .done (.ok { Session := k, Message := sMsg }) := by
  have hk : k.bytes.length = keyLen := k.size
  have hdrop : List.drop D.Magic.length (D.Magic ++ k.bytes ++ c) = k.bytes ++ c := by
    rw [List.append_assoc, List.drop_left]
  have htake : List.take D.Magic.length (D.Magic ++ k.bytes ++ c) = D.Magic := by
    rw [List.append_assoc, List.take_left]
  have hkey : ∀ h, MakeSessionPublic (List.take keyLen (k.bytes ++ c)) h = k := by
    intro h
    apply SessionPublic.eq_of_bytes
    simp [MakeSessionPublic, List.take_left' hk]
  unfold Unpack
  rw [if_neg (by simp), if_neg (by simp [htake])]
  simp only [hdrop]
  rw [dif_pos (by simp [hk])]
  simp only [hkey, List.drop_left' hk]

/-- What `Unpack` does with a frame whose head differs from the magic. -/
theorem Unpack_bad_magic {Priv SharedKey Rand Msg : Type}
    (D : SessionDeps Priv SharedKey Rand Msg) (sm : SessionManager Priv)
    (m rest : List Byte) (hlen : m.length = D.Magic.length) (hne : m ≠ D.Magic) :
    Unpack D sm (m ++ rest) = .panicked "Somehow received non-session message in unpack" := by
  unfold Unpack
  rw [if_neg (by simp [hlen]), if_pos (by rw [← hlen, List.take_left]; exact hne)]

theorem set_ne_self {α : Type} (l : List α) (i : Nat) (b : α) (hi : i < l.length)
    (hb : l[i]? ≠ some b) : l.set i b ≠ l := by
  intro h
  apply hb
  have := congrArg (fun x => x[i]?) h
  simp [List.getElem?_set, hi] at this
  rw [List.getElem?_eq_getElem hi, this]

/-! #### The checksum cipher -/

theorem demoSeal_sum (k : SessionPublic × SessionPublic) (rnd : Unit) (clear : List Byte) :
    (demoSeal k rnd clear).sum = 0 := by
  simp only [demoSeal, List.sum_append, List.sum_cons, List.sum_nil, add_zero]
  exact add_neg_cancel _

theorem demoSeal_length (k : SessionPublic × SessionPublic) (rnd : Unit) (clear : List Byte) :
    (demoSeal k rnd clear).length = 2 * keyLen + clear.length + 1 := by
  simp [demoSeal, k.1.size, k.2.size]
  omega

/-- The checksum cipher opens what the other side sealed. -/
theorem demoOpen_demoSeal (a b : SessionPublic) (rnd : Unit) (clear : List Byte) :
    demoOpen (b, a) (demoSeal (a, b) rnd clear) = some clear := by
  have ha : a.bytes.length = keyLen := a.size
  have hb : b.bytes.length = keyLen := b.size
  have hab : (a.bytes ++ b.bytes).length = 2 * keyLen := by simp [ha, hb]; omega
  unfold demoOpen
  rw [if_pos]
  · simp only [demoSeal]
    rw [List.append_assoc (a.bytes ++ b.bytes), List.drop_left' hab]
    simp
  · refine ⟨?_, ?_, ?_, demoSeal_sum _ _ _⟩
    · rw [demoSeal_length]; omega
    · simp only [demoSeal]
      rw [List.append_assoc, List.append_assoc, List.take_left' ha]
    · simp only [demoSeal]
      rw [List.append_assoc, List.append_assoc, List.drop_left' ha, List.take_left' hb]

/-- The checksum cipher rejects a ciphertext under another sender key. -/
theorem demoOpen_other_key (own sender k dest : SessionPublic) (rnd : Unit)
    (clear : List Byte) (hne : k ≠ sender) :
    demoOpen (own, k) (demoSeal (sender, dest) rnd clear) = none := by
  have hs : sender.bytes.length = keyLen := sender.size
  unfold demoOpen
  rw [if_neg]
  rintro ⟨-, h, -, -⟩
  simp only [demoSeal] at h
  rw [List.append_assoc, List.append_assoc, List.take_left' hs] at h
  exact hne (SessionPublic.eq_of_bytes h.symm)

theorem sum_set_ne (l : List Byte) (i : Nat) (b : Byte) (hi : i < l.length)
    (hb : l[i]? ≠ some b) : (l.set i b).sum ≠ l.sum := by
  induction l generalizing i with
  | nil => simp at hi
  | cons x t ih =>
    cases i with
    | zero =>
      simp only [List.set_cons_zero, List.sum_cons]
      intro h
      apply hb
      simp [add_right_cancel h]
    | succ j =>
      simp only [List.set_cons_succ, List.sum_cons]
      intro h
      exact ih j (by simpa using hi) (by simpa using hb) (add_left_cancel h)

/-- The checksum cipher rejects a sealed ciphertext with one byte altered. -/
theorem demoOpen_altered (own k : SessionPublic) (key : SessionPublic × SessionPublic)
    (rnd : Unit) (clear : List Byte) (j : Nat) (b : Byte)
    (hj : j < (demoSeal key rnd clear).length) (hb : (demoSeal key rnd clear)[j]? ≠ some b) :
    demoOpen (own, k) (alterByte (demoSeal key rnd clear) j b) = none := by
  unfold demoOpen
  rw [if_neg]
  rintro ⟨-, -, -, h⟩
  have := sum_set_ne _ j b hj hb
  rw [demoSeal_sum] at this
  exact this h

/-! #### Pack and Unpack -/

/-- Altering one byte of a frame alters its magic, its key bytes or its
ciphertext, by position. -/
theorem alterByte_frame (m k c : List Byte) (i : Nat) (b : Byte) :
    alterByte (m ++ k ++ c) i b =
      if i < m.length then m.set i b ++ k ++ c
      else if i < m.length + k.length then m ++ k.set (i - m.length) b ++ c
      else m ++ k ++ c.set (i - m.length - k.length) b := by
  unfold alterByte
  by_cases h1 : i < m.length
  · rw [if_pos h1, List.append_assoc, List.set_append_left _ _ h1, List.append_assoc]
  · rw [if_neg h1]
    by_cases h2 : i < m.length + k.length
    · rw [if_pos h2, List.set_append_left _ _ (by simpa using h2),
        List.set_append_right _ _ (by omega)]
    · rw [if_neg h2, List.set_append_right _ _ (by simp; omega)]
      simp [Nat.sub_sub]

/-- C3: round trip. When the recipient opens what the sender seals for it to
the same clear bytes, and parsing the marshalled message gives the message
back, the recipient unpacks the frame the sender packed for it without error
into the `ClearMessage` with that message and the session public key of the
sender. -/
theorem Unpack_Pack_roundtrip {Priv SharedKey Rand Msg : Type}
    (D : SessionDeps Priv SharedKey Rand Msg) (sender recipient : SessionManager Priv)
    (rnd : Rand) (sMsg : Msg)
    (hShared : ∀ (r : Rand) (clear : List Byte),
      D.Open (D.Shared (recipient.session ()) (D.Public (sender.session ())))
        (D.Seal (D.Shared (sender.session ()) (D.Public (recipient.session ()))) r clear)
        = some clear)
    (hParse : D.ParseSessionMessage (D.MarshalSessionMessage sMsg) = .ok sMsg) :
    Unpack D recipient (Pack D sender rnd sMsg (D.Public (recipient.session ())))
      = .done (.ok { Session := D.Public (sender.session ()), Message := sMsg }) := by
  unfold Pack MagicBytes SessionPublic.ToByteSlice
  rw [Unpack_frame]
  simp only [cipherBytes, hShared, hParse]

/-- Witness of C3: the checksum cipher, sender key of ones, recipient key of
twos, message `[7, 9]`. -/
theorem Unpack_Pack_roundtrip_witness :
    Unpack demoDeps demoRecipient demoFrame
      = .done (.ok { Session := demoKey 1, Message := [7, 9] }) :=
  Unpack_Pack_roundtrip demoDeps demoSender demoRecipient () [7, 9]
    (fun r clear => demoOpen_demoSeal (demoKey 1) (demoKey 2) r clear) rfl

/-- Counterexample to C4 as stated: the checksum cipher rejects every
ciphertext under another sender key and every one-byte alteration of the
ciphertext, and yet altering the first byte of the frame, a byte of the magic,
makes `Unpack` panic; `Run` then logs the panic and cancels the actor without
handling the next frame in its inbox. -/
theorem Unpack_altered_magic_panics :
    (∀ k : SessionPublic, k ≠ demoDeps.Public (demoSender.session ()) →
      demoDeps.Open (demoDeps.Shared (demoRecipient.session ()) k)
        (cipherBytes demoDeps demoSender () [7, 9] (demoKey 2)) = none) ∧
    (∀ (j : Nat) (b : Byte),
      j < (cipherBytes demoDeps demoSender () [7, 9] (demoKey 2)).length →
      (cipherBytes demoDeps demoSender () [7, 9] (demoKey 2))[j]? ≠ some b →
      demoDeps.Open
        (demoDeps.Shared (demoRecipient.session ()) (demoDeps.Public (demoSender.session ())))
        (alterByte (cipherBytes demoDeps demoSender () [7, 9] (demoKey 2)) j b) = none) ∧
    demoFrame[0]? ≠ some 0 ∧
    Unpack demoDeps demoRecipient (alterByte demoFrame 0 0)
      = .panicked "Somehow received non-session message in unpack" ∧
    Run demoDeps demoRecipient
        [((), .SManSessionFrameFromRelay 3 (demoNode 1) (alterByte demoFrame 0 0)),
          ((), .SManSessionFrameFromRelay 3 (demoNode 1) demoFrame)]
      = [.logError "panicked" "Somehow received non-session message in unpack", .Cancel] := by
  refine ⟨?_, ?_, by decide, by rfl, by rfl⟩
  · intro k hne
    exact demoOpen_other_key (demoKey 2) (demoKey 1) k (demoKey 2) () [7, 9] hne
  · intro j b hj hb
    exact demoOpen_altered (demoKey 2) (demoKey 1) (demoKey 1, demoKey 2) () [7, 9] j b hj hb

/-- What `Unpack` does with a frame packed by `sender` after one byte at or
behind the end of the magic was altered, when `Open` rejects the ciphertext
under another sender key and rejects its one-byte alterations. -/
theorem Unpack_of_altered_body {Priv SharedKey Rand Msg : Type}
    (D : SessionDeps Priv SharedKey Rand Msg) (sender recipient : SessionManager Priv)
    (rnd : Rand) (sMsg : Msg) (toSession : SessionPublic) (i : Nat) (b : Byte)
    (hi : i < (Pack D sender rnd sMsg toSession).length)
    (hb : (Pack D sender rnd sMsg toSession)[i]? ≠ some b)
    (hKey : ∀ k : SessionPublic, k ≠ D.Public (sender.session ()) →
      D.Open (D.Shared (recipient.session ()) k) (cipherBytes D sender rnd sMsg toSession)
        = none)
    (hTamper : ∀ (j : Nat) (b' : Byte), j < (cipherBytes D sender rnd sMsg toSession).length →
      (cipherBytes D sender rnd sMsg toSession)[j]? ≠ some b' →
      D.Open (D.Shared (recipient.session ()) (D.Public (sender.session ())))
        (alterByte (cipherBytes D sender rnd sMsg toSession) j b') = none)
    (hm : D.Magic.length ≤ i) :
    Unpack D recipient (alterByte (Pack D sender rnd sMsg toSession) i b)
      = .done (.error "could not decrypt session message") := by
  have hk : (D.Public (sender.session ())).bytes.length = keyLen :=
    (D.Public (sender.session ())).size
  unfold Pack MagicBytes SessionPublic.ToByteSlice at hi hb ⊢
  rw [alterByte_frame, if_neg (by omega)]
  by_cases h2 : i < D.Magic.length + (D.Public (sender.session ())).bytes.length
  · rw [if_pos h2]
    have hb2 : (D.Public (sender.session ())).bytes[i - D.Magic.length]? ≠ some b := by
      rw [List.getElem?_append_left (by simp; omega), List.getElem?_append_right hm] at hb
      exact hb
    have hne := set_ne_self _ (i - D.Magic.length) b (by omega) hb2
    have h := Unpack_frame D recipient
      ⟨(D.Public (sender.session ())).bytes.set (i - D.Magic.length) b, by simp [hk]⟩
      (cipherBytes D sender rnd sMsg toSession)
    simp only at h
    rw [h, hKey _ (fun heq => hne (congrArg SessionPublic.bytes heq))]
  · rw [if_neg h2, Unpack_frame]
    simp only [List.length_append] at hi
    have hb2 : (cipherBytes D sender rnd sMsg toSession)[
        i - D.Magic.length - (D.Public (sender.session ())).bytes.length]? ≠ some b := by
      rw [List.getElem?_append_right (by simp; omega)] at hb
      simpa [Nat.sub_sub] using hb
    have h := hTamper _ b (by omega) hb2
    unfold alterByte at h
    rw [h]

/-- What `Unpack` does with a frame packed by `sender` after one byte of the
magic was altered. -/
theorem Unpack_of_altered_magic {Priv SharedKey Rand Msg : Type}
    (D : SessionDeps Priv SharedKey Rand Msg) (sender recipient : SessionManager Priv)
    (rnd : Rand) (sMsg : Msg) (toSession : SessionPublic) (i : Nat) (b : Byte)
    (hb : (Pack D sender rnd sMsg toSession)[i]? ≠ some b)
    (hm : i < D.Magic.length) :
    Unpack D recipient (alterByte (Pack D sender rnd sMsg toSession) i b)
      = .panicked "Somehow received non-session message in unpack" := by
  unfold Pack MagicBytes SessionPublic.ToByteSlice at hb ⊢
  rw [alterByte_frame, if_pos hm, List.append_assoc]
  apply Unpack_bad_magic _ _ _ _ (by simp)
  apply set_ne_self _ _ _ hm
  rw [List.append_assoc, List.getElem?_append_left hm] at hb
  exact hb

/-- C4, amended: take a frame packed by `sender` and alter one byte of it,
and let `Open` reject the ciphertext under any other sender key and reject
any one-byte alteration of the ciphertext. When the byte lies in the sender
public key or in the ciphertext, `Unpack` returns the error "could not
decrypt session message" without a panic and without a `ClearMessage`;
`Handle`, for a frame from a relay and for a frame from an address, only logs
the error and sends nothing to the traffic manager, and `Run` goes on with
the rest of its inbox. When the byte lies in the magic, `Unpack` panics, and
`Run` logs the panic and cancels the actor. -/
theorem Unpack_altered_frame {Priv SharedKey Rand Msg : Type}
    (D : SessionDeps Priv SharedKey Rand Msg) (sender recipient : SessionManager Priv)
    (rnd : Rand) (sMsg : Msg) (toSession : SessionPublic) (i : Nat) (b : Byte)
    (hi : i < (Pack D sender rnd sMsg toSession).length)
    (hb : (Pack D sender rnd sMsg toSession)[i]? ≠ some b)
    (hKey : ∀ k : SessionPublic, k ≠ D.Public (sender.session ()) →
      D.Open (D.Shared (recipient.session ()) k) (cipherBytes D sender rnd sMsg toSession)
        = none)
    (hTamper : ∀ (j : Nat) (b' : Byte), j < (cipherBytes D sender rnd sMsg toSession).length →
      (cipherBytes D sender rnd sMsg toSession)[j]? ≠ some b' →
      D.Open (D.Shared (recipient.session ()) (D.Public (sender.session ())))
        (alterByte (cipherBytes D sender rnd sMsg toSession) j b') = none) :
    (D.Magic.length ≤ i →
      Unpack D recipient (alterByte (Pack D sender rnd sMsg toSession) i b)
        = .done (.error "could not decrypt session message") ∧
      (∀ (r : Rand) (relay : Int) (peer : NodePublic),
        Handle D recipient r (.SManSessionFrameFromRelay relay peer
            (alterByte (Pack D sender rnd sMsg toSession) i b))
          = .done [.logError "error when unpacking session frame from relay"
              "could not decrypt session message"]) ∧
      (∀ (r : Rand) (addrPort : AddrPort),
        Handle D recipient r (.SManSessionFrameFromAddrPort addrPort
            (alterByte (Pack D sender rnd sMsg toSession) i b))
          = .done [.logError "error when unpacking session frame from direct"
              "could not decrypt session message"]) ∧
      (∀ (r : Rand) (relay : Int) (peer : NodePublic) (inbox : List (Rand × ActorMessage Msg)),
        Run D recipient ((r, .SManSessionFrameFromRelay relay peer
            (alterByte (Pack D sender rnd sMsg toSession) i b)) :: inbox)
          = .logError "error when unpacking session frame from relay"
              "could not decrypt session message" :: Run D recipient inbox) ∧
      (∀ (r : Rand) (addrPort : AddrPort) (inbox : List (Rand × ActorMessage Msg)),
        Run D recipient ((r, .SManSessionFrameFromAddrPort addrPort
            (alterByte (Pack D sender rnd sMsg toSession) i b)) :: inbox)
          = .logError "error when unpacking session frame from direct"
              "could not decrypt session message" :: Run D recipient inbox)) ∧
    (i < D.Magic.length →
      Unpack D recipient (alterByte (Pack D sender rnd sMsg toSession) i b)
        = .panicked "Somehow received non-session message in unpack" ∧
      (∀ (r : Rand) (relay : Int) (peer : NodePublic) (inbox : List (Rand × ActorMessage Msg)),
        Run D recipient ((r, .SManSessionFrameFromRelay relay peer
            (alterByte (Pack D sender rnd sMsg toSession) i b)) :: inbox)
          = [.logError "panicked" "Somehow received non-session message in unpack",
              .Cancel]) ∧
      (∀ (r : Rand) (addrPort : AddrPort) (inbox : List (Rand × ActorMessage Msg)),
        Run D recipient ((r, .SManSessionFrameFromAddrPort addrPort
            (alterByte (Pack D sender rnd sMsg toSession) i b)) :: inbox)
          = [.logError "panicked" "Somehow received non-session message in unpack",
              .Cancel])) := by
  constructor
  · intro hm
    have hU := Unpack_of_altered_body D sender recipient rnd sMsg toSession i b hi hb hKey hTamper hm
    refine ⟨hU, ?_, ?_, ?_, ?_⟩
    · intro r relay peer
      simp only [Handle, hU]
    · intro r addrPort
      simp only [Handle, hU]
    · intro r relay peer inbox
      simp only [Run, Handle, hU, List.singleton_append]
    · intro r addrPort inbox
      simp only [Run, Handle, hU, List.singleton_append]
  · intro hm
    have hU := Unpack_of_altered_magic D sender recipient rnd sMsg toSession i b hb hm
    refine ⟨hU, ?_, ?_⟩
    · intro r relay peer inbox
      simp only [Run, Handle, hU]
    · intro r addrPort inbox
      simp only [Run, Handle, hU]

/-- Witness of C4, amended: the checksum cipher and the frame of the message
`[7, 9]` with its last byte, a byte of the ciphertext, set to zero. -/
theorem Unpack_altered_frame_witness :
    demoFrame[102]? ≠ some 0 ∧
    Unpack demoDeps demoRecipient (alterByte demoFrame 102 0)
      = .done (.error "could not decrypt session message") :=
  ⟨by decide,
    ((Unpack_altered_frame demoDeps demoSender demoRecipient () [7, 9] (demoKey 2) 102 0
      (by decide) (by decide)
      (fun k hne => demoOpen_other_key (demoKey 2) (demoKey 1) k (demoKey 2) () [7, 9] hne)
      (fun j b hj hb =>
        demoOpen_altered (demoKey 2) (demoKey 1) (demoKey 1, demoKey 2) () [7, 9] j b hj hb)).1
      (by decide)).1⟩

/-! ### The authenticate phase -/

theorem readerInv_start (s : ServerSession) (resumed : Bool) (reads : List ExpectResult) :
    readerInv (AuthState.start s resumed reads) := by
  simp [readerInv, AuthState.start]

theorem readerInv_authStep (st : AuthState) (a : Action) (h : readerInv st) :
    readerInv (authStep st a) := by
  obtain ⟨hA, hB, hC⟩ := h
  cases a with
  | reader =>
    simp only [authStep]
    by_cases hd : st.readerDone = true
    · simp only [hd, if_true]; exact ⟨hA, hB, hC⟩
    · have hd' : st.readerDone = false := by simpa using hd
      obtain ⟨hm, hs⟩ := hB hd'
      simp only [hd', Bool.false_eq_true, if_false]
      unfold readerStep
      split
      · split
        · exact ⟨hA, fun hx => hB (by simpa using hx), by simpa using hC⟩
        · exact ⟨hA, fun hx => hB (by simpa using hx), by simpa using hC⟩
        · exact ⟨hA, by simp, by simp [hm]⟩
        · exact ⟨hA, by simp, by simp [hs]⟩
      · split
        · exact ⟨hA, by simp, by simp [hm]⟩
        · exact ⟨hA, fun hx => hB (by simpa using hx), by simpa using hC⟩
  | recvErr =>
    simp only [authStep]
    split
    · refine ⟨by simp [selectBody], ?_, ?_⟩
      · simpa [selectBody] using hB
      · simpa [selectBody] using hC
    · exact ⟨hA, hB, hC⟩
  | recvMsg =>
    simp only [authStep]
    split
    · rename_i k hr hm
      have hs : st.deviceKeySeen = false := hC (by simp [hm])
      have hdone : st.readerDone = true := by
        by_contra hx
        have := (hB (by simpa using hx)).1
        simp [hm] at this
      simp [selectBody, hs, readerInv, hr, hdone]
    · exact ⟨hA, hB, hC⟩
  | recvAuth =>
    simp only [authStep]
    split
    · rename_i authMsg rest hr hq
      cases authMsg with
      | RejectAuth reject =>
        simp only [selectBody]
        split <;> exact ⟨by simp, by simpa using hB, by simpa using hC⟩
      | AcceptAuth => exact ⟨by simp [selectBody], by simpa [selectBody] using hB,
          by simpa [selectBody] using hC⟩
      | AuthUrl url =>
        simp only [selectBody]
        split
        · exact ⟨by simp, by simpa using hB, by simpa using hC⟩
        · split
          · exact ⟨by simp, by simpa using hB, by simpa using hC⟩
          · exact ⟨by simpa using hA, by simpa using hB, by simpa using hC⟩
      | other name => exact ⟨by simp [selectBody], by simpa [selectBody] using hB,
          by simpa [selectBody] using hC⟩
    · exact ⟨hA, hB, hC⟩

theorem readerInv_foldl (schedule : List Action) (st : AuthState) (h : readerInv st) :
    readerInv (schedule.foldl authStep st) := by
  induction schedule generalizing st with
  | nil => exact h
  | cons a rest ih => exact ih _ (readerInv_authStep st a h)

theorem selectBody_reads (st : AuthState) (c : SelectCase) :
    (selectBody st c).reads = st.reads ∧ (selectBody st c).readerDone = st.readerDone := by
  cases c with
  | errChan err => simp [selectBody]
  | msgChan k => simp only [selectBody]; split <;> simp
  | authChan authMsg =>
    cases authMsg with
    | RejectAuth reject => simp only [selectBody]; split <;> simp
    | AcceptAuth => simp [selectBody]
    | AuthUrl url =>
      simp only [selectBody]
      split
      · simp
      · split <;> simp
    | other name => simp [selectBody]

theorem unreadInv_authStep (k1 k2 : String) (rest : List ExpectResult) (st : AuthState)
    (a : Action) (h : unreadInv k1 k2 rest st) : unreadInv k1 k2 rest (authStep st a) := by
  cases a with
  | reader =>
    simp only [authStep]
    by_cases hd : st.readerDone = true
    · simp only [hd, if_true]; exact h
    · have hd' : st.readerDone = false := by simpa using hd
      simp only [hd', Bool.false_eq_true, if_false]
      rcases h with h | ⟨h, -⟩
      · unfold readerStep
        split
        · rw [h]; exact Or.inr ⟨rfl, rfl⟩
        · split
          · exact Or.inl h
          · exact Or.inl h
      · rw [hd'] at h; cases h
  | recvErr =>
    simp only [authStep]
    split
    · unfold unreadInv
      rw [(selectBody_reads _ _).1, (selectBody_reads _ _).2]
      exact h
    · exact h
  | recvMsg =>
    simp only [authStep]
    split
    · unfold unreadInv
      rw [(selectBody_reads _ _).1, (selectBody_reads _ _).2]
      exact h
    · exact h
  | recvAuth =>
    simp only [authStep]
    split
    · unfold unreadInv
      rw [(selectBody_reads _ _).1, (selectBody_reads _ _).2]
      exact h
    · exact h

theorem unreadInv_foldl (k1 k2 : String) (rest : List ExpectResult) (schedule : List Action)
    (st : AuthState) (h : unreadInv k1 k2 rest st) :
    unreadInv k1 k2 rest (schedule.foldl authStep st) := by
  induction schedule generalizing st with
  | nil => exact h
  | cons a more ih => exact ih _ (unreadInv_authStep k1 k2 rest st a h)

/-- C5 on the code: whatever the client sends and however the goroutine and
the main loop are scheduled, `doAuthenticate` never returns "client sent
device key twice"; when the client sends `LogonDeviceKey` twice in a row, the
second message is never read, because the goroutine returns after its first
message; and with `AcceptAuth` as the directive, `doAuthenticate` forwards
the first device key to `OnDeviceKey` and returns nil with the second device
key still unread. -/
theorem doAuthenticate_second_device_key_unread :
    (∀ (s : ServerSession) (resumed : Bool) (reads : List ExpectResult)
        (schedule : List Action),
      (doAuthenticate s resumed reads schedule).returned ≠ some (some .deviceKeyTwice)) ∧
    (∀ (s : ServerSession) (resumed : Bool) (k1 k2 : String) (rest : List ExpectResult)
        (schedule : List Action),
      (doAuthenticate s resumed (.deviceKey k1 :: .deviceKey k2 :: rest) schedule).reads
          = .deviceKey k1 :: .deviceKey k2 :: rest ∨
      (doAuthenticate s resumed (.deviceKey k1 :: .deviceKey k2 :: rest) schedule).reads
          = .deviceKey k2 :: rest) ∧
    (doAuthenticate (demoAuthSession [.AcceptAuth] []) false
        [.deviceKey "dk1", .deviceKey "dk2"]
        [.reader, .reader, .recvMsg, .reader, .recvMsg, .recvAuth]).returned = some none ∧
    (doAuthenticate (demoAuthSession [.AcceptAuth] []) false
        [.deviceKey "dk1", .deviceKey "dk2"]
        [.reader, .reader, .recvMsg, .reader, .recvMsg, .recvAuth]).callbacks
      = [.OnSessionCreate "sid_A" (demoNode 1), .OnDeviceKey "sid_A" "dk1"] ∧
    (doAuthenticate (demoAuthSession [.AcceptAuth] []) false
        [.deviceKey "dk1", .deviceKey "dk2"]
        [.reader, .reader, .recvMsg, .reader, .recvMsg, .recvAuth]).reads = [.deviceKey "dk2"] := by
  refine ⟨?_, ?_, by decide, by decide, by decide⟩
  · intro s resumed reads schedule
    exact (readerInv_foldl schedule _ (readerInv_start s resumed reads)).1
  · intro s resumed k1 k2 rest schedule
    rcases unreadInv_foldl k1 k2 rest schedule (AuthState.start s resumed _) (Or.inl rfl) with
      h | ⟨-, h⟩
    · exact Or.inl h
    · exact Or.inr h

/-- Counterexample to C6 as stated: the first `AuthUrl` directive arrives
while the write to the client fails; `doAuthenticate` hands one
`LogonAuthenticate` to the connection and then returns an error instead of
going on with its loop. -/
theorem doAuthenticate_authUrl_write_fails :
    (AuthState.start (demoAuthSession [.AuthUrl "u1"] [some "broken pipe"]) false []).authUrlSent
      = false ∧
    (doAuthenticate (demoAuthSession [.AuthUrl "u1"] [some "broken pipe"]) false []
        [.recvAuth]).s.conn.written = [.LogonAuthenticate "u1"] ∧
    (doAuthenticate (demoAuthSession [.AuthUrl "u1"] [some "broken pipe"]) false []
        [.recvAuth]).returned = some (some (.writingAuthUrl "broken pipe")) := by
  decide

theorem authInv_start (s : ServerSession) (resumed : Bool) (reads : List ExpectResult) :
    authInv s.conn.written s.authChan (AuthState.start s resumed reads) :=
  fun _ => Or.inl ⟨rfl, rfl, rfl⟩

theorem authInv_authStep (written0 : List ControlMessage) (directives0 : List AuthMsg)
    (st : AuthState) (a : Action) (h : authInv written0 directives0 st) :
    authInv written0 directives0 (authStep st a) := by
  cases a with
  | reader =>
    simp only [authStep]
    split
    · exact h
    · unfold readerStep
      split
      · split <;> (intro hr; exact h hr)
      · split <;> (intro hr; exact h hr)
  | recvErr =>
    simp only [authStep]
    split
    · intro hr; simp [selectBody] at hr
    · exact h
  | recvMsg =>
    simp only [authStep]
    split
    · rename_i k hr0 hm
      simp only [selectBody]
      split
      · intro hr; simp at hr
      · intro _; exact h hr0
    · exact h
  | recvAuth =>
    simp only [authStep]
    split
    · rename_i authMsg rest hr0 hq
      have h0 := h hr0
      cases authMsg with
      | RejectAuth reject =>
        simp only [selectBody]
        split <;> (intro hr; simp at hr)
      | AcceptAuth => intro hr; simp [selectBody] at hr
      | AuthUrl url =>
        simp only [selectBody]
        split
        · intro hr; simp at hr
        · rename_i hs
          split
          · intro hr; simp at hr
          · intro _
            rcases h0 with ⟨-, hw, hd⟩ | ⟨hs', -⟩
            · refine Or.inr ⟨rfl, url, rest, ?_, rfl, ?_⟩
              · rw [← hd, hq]
              · simp [Conn.Write, hw]
            · exact absurd hs' hs
      | other name => intro hr; simp [selectBody] at hr
    · exact h

theorem authInv_foldl (written0 : List ControlMessage) (directives0 : List AuthMsg)
    (schedule : List Action) (st : AuthState) (h : authInv written0 directives0 st) :
    authInv written0 directives0 (schedule.foldl authStep st) := by
  induction schedule generalizing st with
  | nil => exact h
  | cons a more ih => exact ih _ (authInv_authStep written0 directives0 st a h)

/-- C6, amended: let `st` be the state of a run of `doAuthenticate` whose loop
has not returned. Then either no directive was taken from the auth mailbox
yet and nothing was written, or exactly the first directive was taken, it was
an `AuthUrl`, and its `LogonAuthenticate` is the one message written. When the
next directive is taken,
* a first `AuthUrl` (none sent before) hands exactly one `LogonAuthenticate`
  with its url to the connection; the loop goes on when that write succeeds,
  and `doAuthenticate` returns a non-nil error that is not
  `LogonRejectedError` when it fails;
* a second `AuthUrl` writes nothing and returns a non-nil error that is not
  `LogonRejectedError`; so of two `AuthUrl` directives in a row only the
  first is written;
* `AcceptAuth` writes nothing and returns nil;
* `RejectAuth` hands its `LogonReject` to the connection and returns an error
  that is `LogonRejectedError` (the error itself when the write succeeds). -/
theorem doAuthenticate_auth_directives (s : ServerSession) (resumed : Bool)
    (reads : List ExpectResult) (schedule : List Action) (st : AuthState)
    (hst : st = doAuthenticate s resumed reads schedule) (hrun : st.returned = none) :
    ((st.authUrlSent = false ∧ st.s.conn.written = s.conn.written ∧
        st.s.authChan = s.authChan) ∨
      (st.authUrlSent = true ∧ ∃ (url : String) (rest : List AuthMsg),
        s.authChan = .AuthUrl url :: rest ∧ st.s.authChan = rest ∧
        st.s.conn.written = s.conn.written ++ [.LogonAuthenticate url])) ∧
    (∀ (url : String) (rest : List AuthMsg),
      st.s.authChan = .AuthUrl url :: rest → st.authUrlSent = false →
      (authStep st .recvAuth).s.conn.written
          = st.s.conn.written ++ [.LogonAuthenticate url] ∧
      (authStep st .recvAuth).authUrlSent = true ∧
      (authStep st .recvAuth).s.authChan = rest ∧
      (st.s.conn.nextResult = none → (authStep st .recvAuth).returned = none) ∧
      (∀ err : String, st.s.conn.nextResult = some err →
        (authStep st .recvAuth).returned = some (some (.writingAuthUrl err)) ∧
        (AuthError.writingAuthUrl err).isLogonRejected = false)) ∧
    (∀ (url : String) (rest : List AuthMsg),
      st.s.authChan = .AuthUrl url :: rest → st.authUrlSent = true →
      (authStep st .recvAuth).s.conn.written = st.s.conn.written ∧
      (authStep st .recvAuth).returned = some (some .authUrlTwice) ∧
      AuthError.authUrlTwice.isLogonRejected = false) ∧
    (∀ (u1 u2 : String) (rest : List AuthMsg),
      st.s.authChan = .AuthUrl u1 :: .AuthUrl u2 :: rest → st.authUrlSent = false →
      st.s.conn.nextResult = none →
      (authStep (authStep st .recvAuth) .recvAuth).s.conn.written
          = st.s.conn.written ++ [.LogonAuthenticate u1] ∧
      (authStep (authStep st .recvAuth) .recvAuth).returned = some (some .authUrlTwice)) ∧
    (∀ rest : List AuthMsg, st.s.authChan = .AcceptAuth :: rest →
      (authStep st .recvAuth).s.conn.written = st.s.conn.written ∧
      (authStep st .recvAuth).returned = some none) ∧
    (∀ (reject : LogonReject) (rest : List AuthMsg),
      st.s.authChan = .RejectAuth reject :: rest →
      (authStep st .recvAuth).s.conn.written = st.s.conn.written ++ [.LogonReject reject] ∧
      (∃ e : AuthError, (authStep st .recvAuth).returned = some (some e) ∧
        e.isLogonRejected = true ∧
        (st.s.conn.nextResult = none → e = .LogonRejectedError))) := by
  refine ⟨?_, ?_, ?_, ?_, ?_, ?_⟩
  · have h := authInv_foldl s.conn.written s.authChan schedule _
      (authInv_start s resumed reads)
    rw [hst] at hrun ⊢
    exact h hrun
  · intro url rest hq hs
    cases hw : st.s.conn.nextResult <;>
      simp [authStep, hrun, hq, selectBody, hs, Conn.Write, hw, AuthError.isLogonRejected]
  · intro url rest hq hs
    simp [authStep, hrun, hq, selectBody, hs, AuthError.isLogonRejected]
  · intro u1 u2 rest hq hs hw
    simp [authStep, hrun, hq, selectBody, hs, Conn.Write, hw]
  · intro rest hq
    simp [authStep, hrun, hq, selectBody]
  · intro reject rest hq
    cases hw : st.s.conn.nextResult <;>
      simp [authStep, hrun, hq, selectBody, Conn.Write, hw, AuthError.isLogonRejected]

/-- Witness of C6, amended: two `AuthUrl` directives in a row on a connection
whose writes succeed, taken one after the other while the device key of the
client is read in between. -/
theorem doAuthenticate_auth_directives_witness :
    (doAuthenticate (demoAuthSession [.AuthUrl "u1", .AuthUrl "u2"] []) false
        [.deviceKey "dk1"] [.recvAuth, .reader, .reader, .recvMsg]).returned = none ∧
    (authStep (doAuthenticate (demoAuthSession [.AuthUrl "u1", .AuthUrl "u2"] []) false
        [.deviceKey "dk1"] [.recvAuth, .reader, .reader, .recvMsg]) .recvAuth).s.conn.written
      = [.LogonAuthenticate "u1"] ∧
    (authStep (doAuthenticate (demoAuthSession [.AuthUrl "u1", .AuthUrl "u2"] []) false
        [.deviceKey "dk1"] [.recvAuth, .reader, .reader, .recvMsg]) .recvAuth).returned
      = some (some .authUrlTwice) :=
  ⟨by decide,
    ((doAuthenticate_auth_directives (demoAuthSession [.AuthUrl "u1", .AuthUrl "u2"] []) false
      [.deviceKey "dk1"] [.recvAuth, .reader, .reader, .recvMsg] _ rfl (by decide)).2.2.1
      "u2" [] (by decide) (by decide)).1,
    ((doAuthenticate_auth_directives (demoAuthSession [.AuthUrl "u1", .AuthUrl "u2"] []) false
      [.deviceKey "dk1"] [.recvAuth, .reader, .reader, .recvMsg] _ rfl (by decide)).2.2.1
      "u2" [] (by decide) (by decide)).2.1⟩

/-! ### The Established read loop and the visibility snapshot -/

/-- C7: in the read loop, an `EndpointUpdate` whose endpoints are nil leaves
the server and with it every field of every session as it was, so
`CurrentEndpoints` keeps its value and no `PeerUpdate` is written to any
session, and the loop goes on with the next read without an error. -/
theorem establishedIter_nil_endpoints (visible : Visible) (srv : Server) (s : Ptr) :
    establishedIter visible srv s (.message (.EndpointUpdate none)) = (srv, .next) ∧
    (∀ reads : List (ReadResult × Visible),
      establishedLoop srv s ((.message (.EndpointUpdate none), visible) :: reads)
        = establishedLoop srv s reads) :=
  ⟨rfl, fun _ => rfl⟩

theorem modify_sessions (srv : Server) (a : Ptr) (f : ServerSession → ServerSession)
    (p : Ptr) :
    (srv.modify a f).sessions p = if p = a then f (srv.sessions a) else srv.sessions p := by
  unfold Server.modify
  by_cases h : p = a
  · subst h; simp
  · simp [h]

/-- The writes of a traversal that calls `UpdateEndpoints` on each session of
a duplicate-free list. -/
theorem foldl_UpdateEndpoints (l : List Ptr) (hl : l.Nodup) (srv : Server) (s : Ptr)
    (endpoints : Slice AddrPort) :
    (∀ p : Ptr,
      ((l.foldl (fun srv session =>
          UpdateEndpoints srv session (srv.sessions s).Peer endpoints) srv).sessions p).conn.written
        = (srv.sessions p).conn.written ++
          if p ∈ l then [.PeerUpdate (srv.sessions s).Peer none endpoints none] else []) ∧
    (∀ p : Ptr,
      ((l.foldl (fun srv session =>
          UpdateEndpoints srv session (srv.sessions s).Peer endpoints) srv).sessions p).Peer
        = (srv.sessions p).Peer) ∧
    (∀ p : Ptr,
      ((l.foldl (fun srv session =>
          UpdateEndpoints srv session (srv.sessions s).Peer endpoints)
            srv).sessions p).CurrentEndpoints
        = (srv.sessions p).CurrentEndpoints) := by
  induction l generalizing srv with
  | nil => simp
  | cons a t ih =>
    obtain ⟨hat, ht⟩ := List.nodup_cons.mp hl
    obtain ⟨h1, h2, h3⟩ := ih ht (UpdateEndpoints srv a (srv.sessions s).Peer endpoints)
    have hpeer : ∀ p, ((UpdateEndpoints srv a (srv.sessions s).Peer endpoints).sessions p).Peer
        = (srv.sessions p).Peer := by
      intro p
      unfold UpdateEndpoints
      rw [modify_sessions]
      split
      · rename_i h; subst h; rfl
      · rfl
    refine ⟨?_, ?_, ?_⟩
    · intro p
      rw [List.foldl_cons, h1 p, hpeer s]
      unfold UpdateEndpoints
      rw [modify_sessions]
      by_cases hpa : p = a
      · subst hpa
        simp [hat, Conn.Write]
      · simp [hpa]
    · intro p
      rw [List.foldl_cons, h2 p, hpeer p]
    · intro p
      rw [List.foldl_cons, h3 p]
      unfold UpdateEndpoints
      rw [modify_sessions]
      split
      · rename_i h; subst h; rfl
      · rfl

/-- C8: in the read loop, an `EndpointUpdate` with a non-nil endpoint list
`E` from the session at `s` makes the `CurrentEndpoints` of that session `E`
and lets the loop go on; every session that `ForVisible` traverses has
exactly one message added to what was written to it, the `PeerUpdate` with
`PubKey` the peer of `s`, `Endpoints` `E` and neither `SessKey` nor
`HomeRelay` set, and no message is written to any other session. -/
theorem establishedIter_endpoints (visible : Visible) (srv : Server) (s : Ptr)
    (E : List AddrPort) :
    (establishedIter visible srv s (.message (.EndpointUpdate (some E)))).2 = .next ∧
    (((establishedIter visible srv s (.message (.EndpointUpdate (some E)))).1.sessions
        s).CurrentEndpoints = some E) ∧
    (∀ p : Ptr,
      (((establishedIter visible srv s (.message (.EndpointUpdate (some E)))).1.sessions
          p).conn.written
        = (srv.sessions p).conn.written ++
          if p ∈ visible.sessions then
            [.PeerUpdate (srv.sessions s).Peer none (some E) none]
          else [])) := by
  obtain ⟨h1, -, h3⟩ := foldl_UpdateEndpoints visible.sessions visible.nodup
    (srv.modify s fun sess => { sess with CurrentEndpoints := some E }) s (some E)
  have hs : ∀ p, ((srv.modify s fun sess => { sess with CurrentEndpoints := some E }).sessions
      p).conn = (srv.sessions p).conn := by
    intro p
    rw [modify_sessions]
    split
    · rename_i h; subst h; rfl
    · rfl
  have hP : ((srv.modify s fun sess => { sess with CurrentEndpoints := some E }).sessions
      s).Peer = (srv.sessions s).Peer := by
    rw [modify_sessions]; simp
  refine ⟨rfl, ?_, ?_⟩
  · simp only [establishedIter, ForVisible]
    rw [h3 s, modify_sessions]; simp
  · intro p
    simp only [establishedIter, ForVisible]
    rw [h1 p, hs p, hP]

/-- The loop of the visibility callback appends, entry by entry, what the
filter of the loop body lets through. -/
theorem foldl_pairLoopBody (srv : Server) (s : Ptr) (entries : List (ClientID × VisibilityPair))
    (ops : List PairOperation) :
    entries.foldl (pairLoopBody srv s) ops =
      ops ++ entries.filterMap fun entry =>
        match srv.sessByNode entry.1 with
        | some sess =>
          if (srv.sessions sess).state = .Established then
            some { A := (srv.sessions s).ID
                   B := (srv.sessions sess).ID
                   AN := (srv.sessions s).Peer
                   BN := (srv.sessions sess).Peer
                   VisibilityPair := entry.2 }
          else
            none
        | none => none := by
  induction entries generalizing ops with
  | nil => simp
  | cons e t ih =>
    rw [List.foldl_cons, ih]
    unfold pairLoopBody
    cases hq : srv.sessByNode e.1 with
    | none => simp [List.filterMap_cons, hq]
    | some sess =>
      by_cases hst : (srv.sessions sess).state = .Established
      · simp [List.filterMap_cons, hq, hst]
      · simp [List.filterMap_cons, hq, hst]

theorem modify_sessByNode (srv : Server) (a : Ptr) (f : ServerSession → ServerSession) :
    (srv.modify a f).sessByNode = srv.sessByNode :=
  rfl

/-- Counterexample to C9 as stated: only the session itself is registered,
and the visibility map lists its own peer; the callback sets the session to
Established and then pairs it with itself, so a pair is formed although no
other session is registered. -/
theorem visibilityCallback_self_pair :
    (∀ (node : NodePublic) (p : Ptr), demoServerAlone.sessByNode node = some p → p = 0) ∧
    (visibilityCallback demoServerAlone 0 demoMapSelf).1.pendingPairs
      = [[{ A := "sid_A", B := "sid_A", AN := demoNode 1, BN := demoNode 1,
            VisibilityPair := 0 }]] := by
  refine ⟨?_, by decide⟩
  intro node p h
  unfold demoServerAlone at h
  simp only at h
  split at h
  · exact (Option.some.inj h).symm
  · cases h

/-- C9, amended: the callback of the visibility snapshot returns nil, sets
the session at `s` to Established and leaves every other session as it was,
and sends one slice on `pendingPairs`: it holds exactly one `PairOperation`
(A the own id, B the id of the other, AN the own node, BN the node of the
other) for each entry of the visibility map whose node is registered to a
session that is Established or is the session itself, in the order of the
map, and none for any other entry. When no other session is registered and
the map does not list a node registered to the session itself, the slice is
empty: no pair is formed. -/
theorem visibilityCallback_pairs (srv : Server) (s : Ptr)
    (m : GoMap ClientID VisibilityPair) :
    (visibilityCallback srv s m).2 = none ∧
    ((visibilityCallback srv s m).1.sessions s).state = .Established ∧
    (∀ p : Ptr, p ≠ s → (visibilityCallback srv s m).1.sessions p = srv.sessions p) ∧
    (visibilityCallback srv s m).1.pendingPairs
      = srv.pendingPairs ++ [expectedPairs srv s m] ∧
    ((∀ (node : NodePublic) (p : Ptr), srv.sessByNode node = some p → p = s) →
      (∀ entry ∈ m.entries, srv.sessByNode entry.1 ≠ some s) →
      (visibilityCallback srv s m).1.pendingPairs = srv.pendingPairs ++ [[]]) := by
  have hpairs : (visibilityCallback srv s m).1.pendingPairs
      = srv.pendingPairs ++ [expectedPairs srv s m] := by
    have h0 : (visibilityCallback srv s m).1.pendingPairs
        = srv.pendingPairs ++ [m.entries.foldl (pairLoopBody
            (srv.modify s fun sess => { sess with state := .Established }) s) []] := rfl
    rw [h0, foldl_pairLoopBody, List.nil_append]
    unfold expectedPairs
    congr 2
    apply List.filterMap_congr
    intro entry _
    simp only [modify_sessByNode, modify_sessions]
    cases hq : srv.sessByNode entry.1 with
    | none => rfl
    | some sess =>
      by_cases hs : sess = s
      · subst hs; simp
      · simp [hs]
  refine ⟨rfl, ?_, ?_, hpairs, ?_⟩
  · simp [visibilityCallback, modify_sessions]
  · intro p hp
    simp [visibilityCallback, modify_sessions, hp]
  · intro hreg hself
    rw [hpairs]
    congr 2
    unfold expectedPairs
    rw [List.filterMap_eq_nil_iff]
    intro entry he
    cases hq : srv.sessByNode entry.1 with
    | none => rfl
    | some sess =>
      exfalso
      have := hreg _ _ hq
      subst this
      exact hself entry he hq

/-- Witness of C9, amended: with `N_A` and the Established `N_B` registered
and `N_B` in the map, one pair of `N_A` with `N_B` is sent; with only `N_A`
registered and `N_B` in the map, no pair is formed. -/
theorem visibilityCallback_pairs_witness :
    (visibilityCallback demoServerBoth 0 demoMapB).1.pendingPairs
      = [] ++ [expectedPairs demoServerBoth 0 demoMapB] ∧
    expectedPairs demoServerBoth 0 demoMapB
      = [{ A := "sid_A", B := "sid_B", AN := demoNode 1, BN := demoNode 2,
           VisibilityPair := 0 }] ∧
    (visibilityCallback demoServerAlone 0 demoMapB).1.pendingPairs = [] ++ [[]] :=
  ⟨(visibilityCallback_pairs demoServerBoth 0 demoMapB).2.2.2.1, by decide,
    (visibilityCallback_pairs demoServerAlone 0 demoMapB).2.2.2.2
      (by
        intro node p h
        unfold demoServerAlone at h
        simp only at h
        split at h
        · exact (Option.some.inj h).symm
        · cases h)
      (by decide)⟩

end EduP2P
